import Mathlib

/-!
Shallow embedding of the CloudEvents conversion engine
(`src/cloudevents/conversion.py`) and of the abstract event contract
(`src/cloudevents/abstract/event.py`), together with theorems settling the
frozen claims about them.

Python values that flow through the conversion engine are modelled by a
two-layer universe: `Prim` holds the atomic JSON/Python primitives, and
`Value` adds the non-JSON values the code branches on (`datetime`
instances, `enum` members, CBOR tags) plus one-level JSON arrays/objects
(enough structure for every operation the source performs; the code never
inspects deeper nesting).
-/

namespace CE

/-- Atomic Python/JSON primitive values: `None`, `str`, `bytes`, `int`,
`bool`. -/
inductive Prim where
  | null
  | str (s : String)
  | bytes (b : List Nat)
  | intv (n : Int)
  | boolv (b : Bool)
  deriving DecidableEq, Repr

/-- A Python value as seen by the conversion engine: a primitive, a
`datetime.datetime` (carried as its ISO-8601 rendering), an `enum.Enum`
member (carried as its underlying primitive `.value`), a `cbor2.CBORTag`
wrapping another value, or a one-level JSON array/object. -/
inductive Value where
  | prim (p : Prim)
  | time (iso : String)
  | enumv (p : Prim)
  | tag (t : Nat) (v : Value)
  | arr (xs : List Prim)
  | obj (kvs : List (String × Prim))
  deriving DecidableEq, Repr

/-- Whether a primitive is JSON-representable (`json.dumps` succeeds on it;
it fails on `bytes`). -/
def Prim.isJson : Prim → Bool
  | .bytes _ => false
  | _ => true

/-- Whether a value is JSON-representable: a JSON-safe primitive, or a
one-level array/object of JSON-safe primitives.  `datetime`, `enum`
members and CBOR tags are not JSON-representable. -/
def Value.isJson : Value → Bool
  | .prim p => p.isJson
  | .arr xs => xs.all Prim.isJson
  | .obj kvs => kvs.all (fun kv => kv.2.isJson)
  | _ => false

/-- String-keyed association list standing for a Python `dict`.  All
operations below mirror the corresponding `dict` operations; a dict built
by Python always has distinct keys (`Nodup` of the key list, see `DictWF`). -/
abbrev Dict (α : Type) := List (String × α)

/-- Model of `d.get(k)` / `d[k]` lookup: first entry with the given key. -/
def dget {α : Type} : Dict α → String → Option α
  | [], _ => none
  | kv :: rest, k => if kv.1 = k then some kv.2 else dget rest k

/-- Model of `d[k] = v`: replace the value of an existing entry in place, otherwise
append a new entry (Python dict assignment keeps the key's position). -/
def dset {α : Type} : Dict α → String → α → Dict α
  | [], k, v => [(k, v)]
  | kv :: rest, k, v => if kv.1 = k then (k, v) :: rest else kv :: dset rest k v

/-- Model of `d.pop(k, None)`: remove every entry with the given key. -/
def derase {α : Type} (d : Dict α) (k : String) : Dict α :=
  d.filter (fun kv => kv.1 ≠ k)

/-- Model of `d.update(e)`: assign every entry of `e` into `d`, in order. -/
def dupdate {α : Type} (d e : Dict α) : Dict α :=
  e.foldl (fun acc kv => dset acc kv.1 kv.2) d

/-- Key list of a dict. -/
def dkeys {α : Type} (d : Dict α) : List String := d.map Prod.fst

/-- Well-formedness of a dict model: distinct keys, as in a real Python
dict. -/
def DictWF {α : Type} (d : Dict α) : Prop := (dkeys d).Nodup

instance {α : Type} (d : Dict α) : Decidable (DictWF d) := by
  unfold DictWF
  infer_instance

theorem dget_dset_self {α : Type} (d : Dict α) (k : String) (v : α) :
    dget (dset d k v) k = some v := by
  induction d with
  | nil => simp [dset, dget]
  | cons kv rest ih =>
    by_cases h : kv.1 = k <;> simp [dset, dget, h, ih]

theorem dget_dset_ne {α : Type} (d : Dict α) (k k' : String) (v : α)
    (h : k ≠ k') : dget (dset d k v) k' = dget d k' := by
  induction d with
  | nil => simp [dset, dget, h]
  | cons kv rest ih =>
    by_cases hk : kv.1 = k
    · subst hk
      simp [dset, dget, h]
    · simp only [dset, if_neg hk, dget]
      by_cases hk' : kv.1 = k' <;> simp [hk', ih]

theorem derase_cons {α : Type} (kv : String × α) (rest : Dict α) (k : String) :
    derase (kv :: rest) k =
      if kv.1 = k then derase rest k else kv :: derase rest k := by
  by_cases h : kv.1 = k <;> simp [derase, List.filter_cons, h]

theorem dget_derase_self {α : Type} (d : Dict α) (k : String) :
    dget (derase d k) k = none := by
  induction d with
  | nil => simp [derase, dget]
  | cons kv rest ih =>
    rw [derase_cons]
    by_cases h : kv.1 = k
    · simpa [h] using ih
    · simpa [dget, h] using ih

theorem dget_derase_ne {α : Type} (d : Dict α) (k k' : String) (h : k ≠ k') :
    dget (derase d k) k' = dget d k' := by
  induction d with
  | nil => simp [derase, dget]
  | cons kv rest ih =>
    rw [derase_cons]
    by_cases hk : kv.1 = k
    · subst hk
      simpa [dget, h] using ih
    · by_cases hk' : kv.1 = k'
      · simp [dget, hk, hk', Ne.symm h, ih]
      · simp [dget, hk, hk', ih]

theorem dget_eq_none_iff {α : Type} (d : Dict α) (k : String) :
    dget d k = none ↔ ∀ kv ∈ d, kv.1 ≠ k := by
  induction d with
  | nil => simp [dget]
  | cons kv rest ih =>
    by_cases h : kv.1 = k
    · simp [dget, h]
    · simp [dget, h, ih]

theorem dset_eq_append {α : Type} (d : Dict α) (k : String) (v : α)
    (h : dget d k = none) : dset d k v = d ++ [(k, v)] := by
  induction d with
  | nil => simp [dset]
  | cons kv rest ih =>
    by_cases hk : kv.1 = k
    · simp [dget, hk] at h
    · simp only [dget, if_neg hk] at h
      simp [dset, hk, ih h]

theorem dget_self_of_wf {α : Type} (d : Dict α) (hwf : DictWF d)
    (kv : String × α) (hm : kv ∈ d) : dget d kv.1 = some kv.2 := by
  induction d with
  | nil => simp at hm
  | cons hd rest ih =>
    rcases List.mem_cons.mp hm with hm | hm
    · subst hm
      simp [dget]
    · have hne : hd.1 ≠ kv.1 := by
        intro he
        have : kv.1 ∈ dkeys rest := List.mem_map_of_mem Prod.fst hm
        rw [← he] at this
        exact (List.nodup_cons.mp hwf).1 this
      have hwf' : DictWF rest := (List.nodup_cons.mp hwf).2
      simp [dget, hne, ih hwf' hm]

theorem dget_dupdate_none {α : Type} (d e : Dict α) (k : String)
    (he : dget e k = none) : dget (dupdate d e) k = dget d k := by
  induction e generalizing d with
  | nil => simp [dupdate]
  | cons kv rest ih =>
    by_cases h : kv.1 = k
    · simp [dget, h] at he
    · simp only [dget, h, if_neg] at he
      have := ih (dset d kv.1 kv.2) he
      simpa [dupdate, dget_dset_ne _ _ _ _ h] using this

/-- The abstract event contract (`abstract/event.py`): an attribute
mapping plus one optional payload value; `Value.prim .null` models the
Python `None` payload. -/
structure CloudEvent where
  attributes : Dict Value
  data : Value
  deriving DecidableEq, Repr

/-- Model of `CloudEvent.create(attributes, data)`: the factory classmethod, the
only construction path of the contract. -/
def CloudEvent.create (attributes : Dict Value) (data : Value) : CloudEvent :=
  ⟨attributes, data⟩

/-- Python `dict.__eq__`: both dicts agree entry-by-entry (insertion order
ignored). -/
def dictEq {α : Type} [DecidableEq α] (d e : Dict α) : Bool :=
  d.all (fun kv => dget e kv.1 == some kv.2) &&
    e.all (fun kv => dget d kv.1 == some kv.2)

/-- Model of `CloudEvent.__eq__` (`abstract/event.py` lines 50-56): structural
equality — the data read models are equal and the attribute read models
are equal as Python dicts. -/
def eventEq (a b : CloudEvent) : Bool :=
  (a.data == b.data) && dictEq a.attributes b.attributes

/-- A conforming event (spec §3): the attribute mapping is a genuine dict
(distinct keys) and the reserved keys `"data"` and `"extensions"` do not
appear inside it. -/
def Conforming (e : CloudEvent) : Prop :=
  DictWF e.attributes ∧ dget e.attributes "data" = none ∧
    dget e.attributes "extensions" = none

/-- Model of `best_effort_encode_attribute_value` (`conversion.py` lines 259-274):
an `enum.Enum` member becomes its underlying `.value`; a
`datetime.datetime` becomes its `.isoformat()` string; every other value
passes through unchanged. -/
def best_effort_encode_attribute_value : Value → Value
  | .enumv p => .prim p
  | .time iso => .prim (.str iso)
  | v => v

/-- Model of `to_dict` (`conversion.py` lines 300-309):
`result = {attribute_name: event.get(attribute_name) for attribute_name in event}`
copies the attribute map (dict iteration yields each key once and `get`
returns its value), then `result["data"] = event.data` assigns into the
fresh copy. -/
def to_dict (e : CloudEvent) : Dict Value :=
  dset e.attributes "data" e.data

/-- Model of `to_dict` with the event threaded through every operation it performs
on the event (`__iter__` and `get`, both read-only views per the contract;
the `result["data"]` assignment mutates only the freshly built `result`
dict).  Returns the result together with the state of the event after the
call. -/
def to_dict_run (e : CloudEvent) : Dict Value × CloudEvent :=
  (dset e.attributes "data" e.data, e)

/-- Model of `from_dict` (`conversion.py` lines 280-297): the attribute dict is the
comprehension over the input entries, skipping key `"data"` and applying
`best_effort_encode_attribute_value` to every kept value; the payload is
`event.get("data")` (Python `None` when the key is absent). -/
def from_dict (event : Dict Value) : CloudEvent :=
  CloudEvent.create
    ((event.filter (fun kv => kv.1 ≠ "data")).map
      (fun kv => (kv.1, best_effort_encode_attribute_value kv.2)))
    ((dget event "data").getD (.prim .null))

theorem encode_of_isJson (v : Value) (h : v.isJson = true) :
    best_effort_encode_attribute_value v = v := by
  cases v <;> simp_all [Value.isJson, best_effort_encode_attribute_value]

theorem dictEq_refl {α : Type} [DecidableEq α] (d : Dict α) (hwf : DictWF d) :
    dictEq d d = true := by
  have h : ∀ kv ∈ d, dget d kv.1 = some kv.2 := fun kv hm =>
    dget_self_of_wf d hwf kv hm
  simp only [dictEq, Bool.and_eq_true, List.all_eq_true]
  exact ⟨fun kv hm => by simp [h kv hm], fun kv hm => by simp [h kv hm]⟩

theorem map_encode_eq_self (l : Dict Value)
    (hl : ∀ kv ∈ l, Value.isJson kv.2 = true) :
    l.map (fun kv => (kv.1, best_effort_encode_attribute_value kv.2)) = l := by
  induction l with
  | nil => rfl
  | cons kv rest ih =>
    simp only [List.map_cons]
    rw [encode_of_isJson kv.2 (hl kv (by simp)),
      ih (fun x hx => hl x (by simp [hx]))]

theorem from_dict_to_dict_eq (e : CloudEvent) (hc : Conforming e)
    (hattrs : ∀ kv ∈ e.attributes, Value.isJson kv.2 = true) :
    from_dict (to_dict e) = CloudEvent.create e.attributes e.data := by
  obtain ⟨hwf, hdata, -⟩ := hc
  have hne : ∀ kv ∈ e.attributes, kv.1 ≠ "data" := (dget_eq_none_iff _ _).mp hdata
  have hfilter : (to_dict e).filter (fun kv => kv.1 ≠ "data") = e.attributes := by
    rw [to_dict, dset_eq_append _ _ _ hdata, List.filter_append]
    simp only [List.filter_cons, List.filter_nil]
    norm_num
    exact fun a b hm => hne (a, b) hm
  have hget : dget (to_dict e) "data" = some e.data := dget_dset_self _ _ _
  unfold from_dict
  rw [hfilter, map_encode_eq_self e.attributes hattrs, hget]
  rfl

/-- Claim C1: for every conforming event `e` whose payload and attribute
values are JSON-representable, `from_dict (to_dict e)` returns an event
equal to `e` under the contract's structural attribute-map-and-payload
equality (`eventEq`). -/
theorem from_dict_to_dict_roundtrip (e : CloudEvent) (hc : Conforming e)
    (hattrs : ∀ kv ∈ e.attributes, Value.isJson kv.2 = true)
    (hdata : e.data.isJson = true) :
    eventEq (from_dict (to_dict e)) e = true := by
  rw [from_dict_to_dict_eq e hc hattrs]
  cases e with
  | mk attrs d =>
    simp [eventEq, CloudEvent.create, dictEq_refl _ hc.1]

/-- Witness for C1: a concrete conforming 1.0 event with four string
attributes and payload `None` round-trips through `to_dict`/`from_dict`. -/
theorem from_dict_to_dict_roundtrip_witness :
    eventEq (from_dict (to_dict ⟨[("specversion", .prim (.str "1.0")),
        ("id", .prim (.str "1")), ("source", .prim (.str "s")),
        ("type", .prim (.str "t"))], .prim .null⟩))
      ⟨[("specversion", .prim (.str "1.0")), ("id", .prim (.str "1")),
        ("source", .prim (.str "s")), ("type", .prim (.str "t"))],
        .prim .null⟩ = true :=
  from_dict_to_dict_roundtrip _ ⟨by decide, by decide, by decide⟩
    (by decide) (by decide)

/-- Claim C9: `to_dict` does not mutate the event: threading the event
through every operation the source performs (`to_dict_run`), the event
state after the call is the initial one, and the returned dict is the
fresh dict built by `to_dict` (the `result["data"]` assignment hits only
that fresh dict, never the event's attribute map or payload). -/
theorem to_dict_does_not_mutate (e : CloudEvent) :
    (to_dict_run e).2 = e ∧ (to_dict_run e).1 = to_dict e :=
  ⟨rfl, rfl⟩

/-- The typed failure conditions of `cloudevents.exceptions` raised by the
conversion engine, plus the `KeyError` raised by the contract's indexed
read (`abstract/event.py` lines 60-61). -/
inductive CloudError where
  | missingRequiredFields
  | invalidRequiredFields
  | invalidStructuredJSON
  | cborFeatureNotInstalled
  | keyError (key : String)
  deriving DecidableEq, Repr

/-- The HTTP body argument of `from_http`: `None`, text, bytes,
`bytearray`, or any other Python value (`otherB`). -/
inductive Body where
  | noneB
  | strB (s : String)
  | bytesB (b : List Nat)
  | byteArrB (b : List Nat)
  | otherB
  deriving DecidableEq, Repr

/-- The two supported spec versions. -/
inductive Version where
  | v1
  | v03
  deriving DecidableEq, Repr

/-- The two wire modes of the HTTP rendering. -/
inductive Mode where
  | structured
  | binary
  deriving DecidableEq, Repr

/-- Model of `_obj_by_version` (`conversion.py` line 66): the version registry,
keyed by exactly the strings `"1.0"` and `"0.3"`; `.get` on any other
value (including non-strings) yields `None`. -/
def _obj_by_version : Value → Option Version
  | .prim (.str "1.0") => some .v1
  | .prim (.str "0.3") => some .v03
  | _ => none

/-- ASCII lowercasing of one character (HTTP header names are ASCII, so
`str.lower()` restricted to them is exactly this). -/
def lowerChar (c : Char) : Char :=
  match c with
  | 'A' => 'a' | 'B' => 'b' | 'C' => 'c' | 'D' => 'd' | 'E' => 'e'
  | 'F' => 'f' | 'G' => 'g' | 'H' => 'h' | 'I' => 'i' | 'J' => 'j'
  | 'K' => 'k' | 'L' => 'l' | 'M' => 'm' | 'N' => 'n' | 'O' => 'o'
  | 'P' => 'p' | 'Q' => 'q' | 'R' => 'r' | 'S' => 's' | 'T' => 't'
  | 'U' => 'u' | 'V' => 'v' | 'W' => 'w' | 'X' => 'x' | 'Y' => 'y'
  | 'Z' => 'z'
  | c => c

/-- Model of `key.lower()` on a header name. -/
def lowerString (s : String) : String := ⟨s.data.map lowerChar⟩

/-- Model of `{key.lower(): value for key, value in headers.items()}`
(`conversion.py` line 137): dict comprehension over the headers; a later
key that collides after lowercasing overwrites the earlier entry. -/
def lowerHeaders (headers : Dict String) : Dict String :=
  headers.foldl (fun acc kv => dset acc (lowerString kv.1) kv.2) []

/-- Model of `key.startswith("ce-")` on a (lowercased) header name. -/
def ceHeaderName (k : String) : Bool := k.data.take 3 = ['c', 'e', '-']

/-- The attribute named by a `ce-`-prefixed header: the name with the
first three characters removed. -/
def ceAttributeName (k : String) : String := ⟨k.data.drop 3⟩

/-- Modelled from the spec: `is_binary`, the mode detector consumed from
the external `cloudevents.sdk.converters` package — "binary if a
specversion-carrying header is present" (spec §4.3 step 3, §6). -/
def is_binary (headers : Dict String) : Bool :=
  (dget headers "ce-specversion").isSome

/-- Modelled from the spec: the version-specific working handler provided
by the external `cloudevents.sdk.event` package (spec §3 "Working
Handler", §6): a mutable attribute container (`props`) with a `data` slot
and an `extensions` sub-map for vendor attributes. -/
structure Handler where
  version : Version
  props : Dict Value
  data : Value
  extensions : Dict Value
  deriving DecidableEq, Repr

/-- Modelled from the spec: the core attribute names owned by each
version's container (the per-version containers are external
collaborators, spec §2). -/
def knownAttributes : Version → List String
  | .v1 => ["specversion", "id", "source", "type", "datacontenttype",
      "dataschema", "subject", "time"]
  | .v03 => ["specversion", "id", "source", "type", "datacontenttype",
      "schemaurl", "subject", "time", "datacontentencoding"]

/-- Modelled from the spec: `handler.Set(name, value)` (spec §6): the
reserved name `data` fills the data slot; the handler's own property
names (the version's core attributes and the `extensions` placeholder)
fill the attribute container; every other name is a vendor attribute
stored in the `extensions` sub-map. -/
def Handler.set (h : Handler) (name : String) (v : Value) : Handler :=
  if name = "data" then { h with data := v }
  else if name = "extensions" ∨ name ∈ knownAttributes h.version then
    { h with props := dset h.props name v }
  else { h with extensions := dset h.extensions name v }

/-- A freshly instantiated working handler (`event_handler()`), with no
attributes, payload `None` and no extensions. -/
def Handler.empty (ver : Version) : Handler :=
  ⟨ver, [], .prim .null, []⟩

/-- Modelled from the spec: `event.Properties()` — the handler's attribute
map including its internal `data` and `extensions` placeholder entries.
`from_http` pops both placeholders without reading their values, so they
are carried as `null` here. -/
def Handler.properties (h : Handler) : Dict Value :=
  dset (dset h.props "data" (.prim .null)) "extensions" (.prim .null)

/-- The content a failed `json.loads` falls back to in `_json_or_string`:
the body itself as a Python value.  (`otherB` stands for a non-text,
non-bytes object, which never reaches the unmarshaller in `from_http`;
it is mapped to `None` as a model artifact.) -/
def bodyValue : Body → Value
  | .noneB => .prim .null
  | .strB s => .prim (.str s)
  | .bytesB b => .prim (.bytes b)
  | .byteArrB b => .prim (.bytes b)
  | .otherB => .prim .null

/-- Model of `_json_or_string` (`conversion.py` lines 312-332), parametric in the
`json.loads` model `jparse` (`none` models a parse error): `None` content
stays `None`; content that parses as JSON becomes the parsed value; on a
parse error the content itself is returned. -/
def _json_or_string (jparse : Body → Option Value) (content : Body) : Value :=
  match content with
  | .noneB => .prim .null
  | c =>
    match jparse c with
    | some v => v
    | none => bodyValue c

/-- Modelled from the spec: the external marshaller's
`FromRequest(handler, headers, body, data_unmarshaller)` (spec §4.3 step
5, §6).  Binary mode: each `ce-`-prefixed header (names already
lowercased) sets the attribute it names and the payload is the
unmarshalled body.  Structured mode: the entries of the JSON body set the
attributes, the `data` entry filling the payload slot. -/
def fromRequest (jparse : Body → Option Value) (ver : Version)
    (headers : Dict String) (body : Body)
    (unmarshaller : Body → Value) : Handler :=
  if is_binary headers then
    let h := headers.foldl
      (fun h kv =>
        if ceHeaderName kv.1 then h.set (ceAttributeName kv.1) (.prim (.str kv.2))
        else h)
      (Handler.empty ver)
    { h with data := unmarshaller body }
  else
    match jparse body with
    | some (.obj kvs) =>
        kvs.foldl (fun h kv => h.set kv.1 (.prim kv.2)) (Handler.empty ver)
    | _ => Handler.empty ver

/-- Model of `data is None or data == b""` → `""` (`conversion.py` lines 127-129);
Python's `b"" == bytearray(b"")` is `True`, so the empty `bytearray` is
normalized as well. -/
def normalizeBody : Body → Body
  | .noneB => .strB ""
  | .bytesB [] => .strB ""
  | .byteArrB [] => .strB ""
  | b => b

/-- Model of `isinstance(data, (str, bytes, bytearray))` (`conversion.py` line
131). -/
def isTextOrBytes : Body → Bool
  | .strB _ => true
  | .bytesB _ => true
  | .byteArrB _ => true
  | _ => false

/-- Lines 143-164 of `from_http`: establish the specversion from the
headers (binary mode) or else by parsing the body as JSON (structured
mode).  A Python `None` result — absent header, absent `specversion` key,
or a JSON `null` value under that key — is the `null` value here, exactly
as `dict.get(..., None)` collapses the three in the source. -/
def readSpecversion (jparse : Body → Option Value) (headers : Dict String)
    (data : Body) : Except CloudError Value :=
  if is_binary headers then
    .ok (match dget headers "ce-specversion" with
      | some s => Value.prim (.str s)
      | none => Value.prim .null)
  else
    match jparse data with
    | none => .error CloudError.missingRequiredFields
    | some (.obj kvs) =>
        .ok (((dget kvs "specversion").map Value.prim).getD (.prim .null))
    | some _ => .error CloudError.missingRequiredFields

/-- Lines 176-187 of `from_http`: collect the handler's attribute map, pop
the `data` and `extensions` placeholder keys, flatten the extensions
sub-map back on top, and normalize an empty decoded payload (`""` or
`b""`) to `None` — the source applies this normalization unconditionally,
in both wire modes. -/
def buildDecodedEvent (event : Handler) : CloudEvent :=
  let attrs :=
    dupdate (derase (derase event.properties "data") "extensions")
      event.extensions
  let data :=
    if event.data = .prim (.str "") ∨ event.data = .prim (.bytes []) then
      Value.prim .null
    else event.data
  CloudEvent.create attrs data

/-- Model of `from_http` (`conversion.py` lines 107-187), parametric in the
`json.loads` model `jparse` and in the optional `data_unmarshaller`
(defaulting to `_json_or_string`). -/
def from_http (jparse : Body → Option Value)
    (data_unmarshaller : Option (Body → Value))
    (headers : Dict String) (data : Body) : Except CloudError CloudEvent :=
  let data := normalizeBody data
  if isTextOrBytes data then
    let headers := lowerHeaders headers
    let unmarshaller := data_unmarshaller.getD (_json_or_string jparse)
    match readSpecversion jparse headers data with
    | .error e => .error e
    | .ok specversion =>
      if specversion = .prim .null then
        .error CloudError.missingRequiredFields
      else
        match _obj_by_version specversion with
        | none => .error CloudError.invalidRequiredFields
        | some ver =>
            .ok (buildDecodedEvent
              (fromRequest jparse ver headers data unmarshaller))
  else .error CloudError.invalidStructuredJSON

/-- Model of `_best_effort_serialize_to_json` (`conversion.py` lines 41-58),
parametric in the `json.dumps` model `jdump` (`none` models a
`TypeError`): `None` stays `None`; a serializable value becomes its JSON
string; a non-serializable value is returned as is. -/
def _best_effort_serialize_to_json (jdump : Value → Option String)
    (v : Value) : Value :=
  match v with
  | .prim .null => .prim .null
  | v =>
    match jdump v with
    | some s => .prim (.str s)
    | none => v

/-- Model of `_default_marshaller_by_format` (`conversion.py` lines 61-64):
structured mode defaults to the identity, binary mode to
`_best_effort_serialize_to_json`. -/
def _default_marshaller_by_format (jdump : Value → Option String) :
    Mode → (Value → Value)
  | .structured => fun x => x
  | .binary => _best_effort_serialize_to_json jdump

/-- Modelled from the spec: the output of the external marshaller's
`ToRequest(handler, format, data_marshaller)` (spec §4.2 steps 3-5).  The
renderer always succeeds; its headers/body pair is represented abstractly
by the chosen mode, the fully populated handler, and the marshalled
payload. -/
structure HttpRendering where
  mode : Mode
  handler : Handler
  body : Value
  deriving DecidableEq, Repr

/-- Modelled from the spec: `ToRequest` renders the handler in the given
mode, applying the data marshaller to the payload. -/
def ToRequest (h : Handler) (m : Mode) (marshaller : Value → Value) :
    HttpRendering :=
  ⟨m, h, marshaller h.data⟩

/-- Model of `_to_http` (`conversion.py` lines 190-218): resolve the default
marshaller by format; read `event["specversion"]` (the contract's indexed
read raises `KeyError` when the key is absent); reject an unregistered
version with `InvalidRequiredFields`; otherwise copy every attribute and
the payload into a fresh working handler and render it. -/
def _to_http (jdump : Value → Option String)
    (data_marshaller : Option (Value → Value)) (format : Mode)
    (event : CloudEvent) : Except CloudError HttpRendering :=
  let marshaller :=
    data_marshaller.getD (_default_marshaller_by_format jdump format)
  match dget event.attributes "specversion" with
  | none => .error (CloudError.keyError "specversion")
  | some sv =>
    match _obj_by_version sv with
    | none => .error CloudError.invalidRequiredFields
    | some ver =>
      let h := event.attributes.foldl (fun h kv => h.set kv.1 kv.2)
        (Handler.empty ver)
      let h := { h with data := event.data }
      .ok (ToRequest h format marshaller)

/-- Model of `to_structured` (`conversion.py` lines 221-236). -/
def to_structured (jdump : Value → Option String)
    (data_marshaller : Option (Value → Value)) (event : CloudEvent) :
    Except CloudError HttpRendering :=
  _to_http jdump data_marshaller .structured event

/-- Model of `to_binary` (`conversion.py` lines 239-256). -/
def to_binary (jdump : Value → Option String)
    (data_marshaller : Option (Value → Value)) (event : CloudEvent) :
    Except CloudError HttpRendering :=
  _to_http jdump data_marshaller .binary event

/-- Model of `_best_effort_decode_iso_formatted_time` (`conversion.py` lines
335-353), parametric in the `datetime.datetime.fromisoformat` model
`isoparse` (`none` models a `ValueError`): a string `time` value that
parses becomes a datetime (carried as its ISO rendering); anything else is
left untouched. -/
def _best_effort_decode_iso_formatted_time
    (isoparse : String → Option String) (event_dict : Dict Value) :
    Dict Value :=
  match dget event_dict "time" with
  | some (.prim (.str s)) =>
    match isoparse s with
    | some t => dset event_dict "time" (.time t)
    | none => event_dict
  | _ => event_dict

/-- One step of `_tag_well_known_uri_attributes` (`conversion.py` lines
356-372) with `cbor2` installed: if the named attribute's value is a
string, wrap it in `_CBORTag(32, value)`. -/
def tagOneUriAttribute (d : Dict Value) (name : String) : Dict Value :=
  match dget d name with
  | some (.prim (.str s)) => dset d name (.tag 32 (.prim (.str s)))
  | _ => d

/-- Model of `_tag_well_known_uri_attributes` with `cbor2` installed: iterate over
the set `_WELL_KNOWN_URI_ATTRIBUTES = {"source", "dataschema"}`.  The two
updates touch distinct keys, so the set's iteration order does not affect
the result. -/
def _tag_well_known_uri_attributes (d : Dict Value) : Dict Value :=
  tagOneUriAttribute (tagOneUriAttribute d "source") "dataschema"

/-- Model of `_value_without_cbor_tag` (`conversion.py` lines 391-399): a
`CBORTag` is replaced by its inner `.value`; anything else is returned
unchanged. -/
def _value_without_cbor_tag : Value → Value
  | .tag _ v => v
  | v => v

/-- Model of `_strip_attribute_cbor_tags` (`conversion.py` lines 402-409). -/
def _strip_attribute_cbor_tags (d : Dict Value) : Dict Value :=
  d.map (fun kv => (kv.1, _value_without_cbor_tag kv.2))

/-- Model of `to_cbor` (`conversion.py` lines 375-388) with `cbor2` installed,
parametric in the `cbor2.dumps` model (`β` is the opaque encoded CBOR
data item type, bytes in the source). -/
def to_cbor {β : Type} (isoparse : String → Option String)
    (cbor_dumps : Dict Value → β) (event : CloudEvent) : β :=
  cbor_dumps (_tag_well_known_uri_attributes
    (_best_effort_decode_iso_formatted_time isoparse (to_dict event)))

/-- Model of `from_cbor` (`conversion.py` lines 412-424) with `cbor2` installed,
parametric in the `cbor2.loads` model. -/
def from_cbor {β : Type} (cbor_loads : β → Dict Value) (data : β) :
    CloudEvent :=
  from_dict (_strip_attribute_cbor_tags (cbor_loads data))

/-- Model of `_fail_because_cbor_not_installed` (`conversion.py` lines 30-34):
in the configuration where the `cbor2` import fails, this function is
bound to `_cbor_dumps`, `_cbor_loads` and `_CBORTag`; every call raises
`CBORFeatureNotInstalled`. -/
def _fail_because_cbor_not_installed {α : Type} : Except CloudError α :=
  throw CloudError.cborFeatureNotInstalled

/-- Model of `_cbor_dumps` without `cbor2` (`conversion.py` line 36): ignores its
argument and raises. -/
def cborDumpsNoCbor (_d : Dict Value) : Except CloudError (List Nat) :=
  _fail_because_cbor_not_installed

/-- Model of `_cbor_loads` without `cbor2` (`conversion.py` line 37): ignores its
argument and raises. -/
def cborLoadsNoCbor (_data : List Nat) : Except CloudError (Dict Value) :=
  _fail_because_cbor_not_installed

/-- Model of `_CBORTag` without `cbor2` (`conversion.py` line 38): ignores its
arguments and raises. -/
def cborTagNoCbor (_t : Nat) (_v : Value) : Except CloudError Value :=
  _fail_because_cbor_not_installed

/-- One step of `_tag_well_known_uri_attributes` without `cbor2`: the
`isinstance(attribute_value, str)` test still runs, and constructing the
tag calls the fail stub. -/
def tagOneUriAttributeNoCbor (d : Dict Value) (name : String) :
    Except CloudError (Dict Value) :=
  match dget d name with
  | some (.prim (.str s)) =>
    match cborTagNoCbor 32 (.prim (.str s)) with
    | .error e => .error e
    | .ok t => .ok (dset d name t)
  | _ => .ok d

/-- Model of `_tag_well_known_uri_attributes` without `cbor2`. -/
def tagWellKnownUriAttributesNoCbor (d : Dict Value) :
    Except CloudError (Dict Value) :=
  match tagOneUriAttributeNoCbor d "source" with
  | .error e => .error e
  | .ok d => tagOneUriAttributeNoCbor d "dataschema"

/-- Model of `to_cbor` without `cbor2`: the time decoding still runs, the tagging
step raises on the first string-valued URI attribute, and otherwise
`_cbor_dumps` raises. -/
def to_cbor_noCbor (isoparse : String → Option String)
    (event : CloudEvent) : Except CloudError (List Nat) :=
  match tagWellKnownUriAttributesNoCbor
      (_best_effort_decode_iso_formatted_time isoparse (to_dict event)) with
  | .error e => .error e
  | .ok d => cborDumpsNoCbor d

/-- Model of `from_cbor` without `cbor2`: `_cbor_loads(data)` is evaluated first
and raises. -/
def from_cbor_noCbor (data : List Nat) : Except CloudError CloudEvent :=
  match cborLoadsNoCbor data with
  | .error e => .error e
  | .ok d => .ok (from_dict (_strip_attribute_cbor_tags d))

theorem tagOneNoCbor_cases (d : Dict Value) (name : String) :
    tagOneUriAttributeNoCbor d name =
        .error CloudError.cborFeatureNotInstalled ∨
      tagOneUriAttributeNoCbor d name = .ok d := by
  unfold tagOneUriAttributeNoCbor
  split
  · exact Or.inl rfl
  · exact Or.inr rfl

/-- Claim C7: in the configuration where the CBOR library is unavailable,
every `to_cbor` call (for any event and any time parser) and every
`from_cbor` call (for any input bytes) fails with exactly
`CBORFeatureNotInstalled`. -/
theorem cbor_unavailable_always_fails :
    (∀ isoparse e, to_cbor_noCbor isoparse e =
        .error CloudError.cborFeatureNotInstalled) ∧
    (∀ data, from_cbor_noCbor data =
        .error CloudError.cborFeatureNotInstalled) := by
  constructor
  · intro isoparse e
    unfold to_cbor_noCbor tagWellKnownUriAttributesNoCbor
    rcases tagOneNoCbor_cases
        (_best_effort_decode_iso_formatted_time isoparse (to_dict e))
        "source" with h | h
    · rw [h]
    · rw [h]
      dsimp only
      rcases tagOneNoCbor_cases
          (_best_effort_decode_iso_formatted_time isoparse (to_dict e))
          "dataschema" with h2 | h2
      · rw [h2]
      · rw [h2]
        rfl
  · intro data
    rfl

/-- Claim C10: encoding an event whose attribute map lacks `"specversion"`
surfaces the indexed read's `KeyError`, not a typed conversion error; the
typed `InvalidRequiredFields` arises on encode only when `specversion` is
present but not in the version registry. -/
theorem encode_missing_specversion_keyerror :
    (∀ jdump m (e : CloudEvent), dget e.attributes "specversion" = none →
      to_structured jdump m e = .error (CloudError.keyError "specversion") ∧
      to_binary jdump m e = .error (CloudError.keyError "specversion")) ∧
    (∀ jdump m fmt (e : CloudEvent),
      _to_http jdump m fmt e = .error CloudError.invalidRequiredFields →
      ∃ v, dget e.attributes "specversion" = some v ∧
        _obj_by_version v = none) := by
  constructor
  · intro jdump m e h
    refine ⟨?_, ?_⟩ <;> simp [to_structured, to_binary, _to_http, h]
  · intro jdump m fmt e h
    simp only [_to_http] at h
    cases hsv : dget e.attributes "specversion" with
    | none => rw [hsv] at h; simp at h
    | some v =>
      rw [hsv] at h
      dsimp only at h
      cases hreg : _obj_by_version v with
      | none => exact ⟨v, rfl, hreg⟩
      | some ver => rw [hreg] at h; simp at h

/-- Witness for C10: a concrete event with only an `id` attribute. -/
theorem encode_missing_specversion_keyerror_witness :
    to_structured (fun _ => none) none
        ⟨[("id", .prim (.str "1"))], .prim .null⟩ =
      .error (CloudError.keyError "specversion") ∧
    to_binary (fun _ => none) none
        ⟨[("id", .prim (.str "1"))], .prim .null⟩ =
      .error (CloudError.keyError "specversion") :=
  encode_missing_specversion_keyerror.1 (fun _ => none) none
    ⟨[("id", .prim (.str "1"))], .prim .null⟩ (by decide)

theorem readSpecversion_binary (jparse : Body → Option Value)
    (hs : Dict String) (data : Body) (s : String)
    (h : dget hs "ce-specversion" = some s) :
    readSpecversion jparse hs data = .ok (.prim (.str s)) := by
  simp [readSpecversion, is_binary, h]

theorem readSpecversion_structured (jparse : Body → Option Value)
    (hs : Dict String) (data : Body) (v : Value)
    (hbin : dget hs "ce-specversion" = none) (hp : jparse data = some v) :
    readSpecversion jparse hs data =
      match v with
      | .obj kvs => .ok (((dget kvs "specversion").map Value.prim).getD
          (.prim .null))
      | _ => .error CloudError.missingRequiredFields := by
  cases v <;> simp [readSpecversion, is_binary, hbin, hp]

/-- Claim C5: a specversion that is established but is not one of the
supported versions raises `InvalidRequiredFields`: on decode through the
binary header path and through the structured body path, and on encode
through `to_structured` and `to_binary`. -/
theorem unsupported_specversion_invalid :
    (∀ jparse unm headers data s,
      isTextOrBytes (normalizeBody data) = true →
      dget (lowerHeaders headers) "ce-specversion" = some s →
      _obj_by_version (.prim (.str s)) = none →
      from_http jparse unm headers data =
        .error CloudError.invalidRequiredFields) ∧
    (∀ jparse unm headers data kvs p,
      isTextOrBytes (normalizeBody data) = true →
      dget (lowerHeaders headers) "ce-specversion" = none →
      jparse (normalizeBody data) = some (.obj kvs) →
      dget kvs "specversion" = some p → p ≠ .null →
      _obj_by_version (.prim p) = none →
      from_http jparse unm headers data =
        .error CloudError.invalidRequiredFields) ∧
    (∀ jdump m (e : CloudEvent) v,
      dget e.attributes "specversion" = some v → _obj_by_version v = none →
      to_structured jdump m e = .error CloudError.invalidRequiredFields ∧
      to_binary jdump m e = .error CloudError.invalidRequiredFields) := by
  refine ⟨?_, ?_, ?_⟩
  · intro jparse unm headers data s h1 h2 h3
    simp only [from_http, h1, if_true]
    rw [readSpecversion_binary jparse _ _ s h2]
    simp [h3]
  · intro jparse unm headers data kvs p h1 h2 h3 h4 h5 h6
    simp only [from_http, h1, if_true]
    rw [readSpecversion_structured jparse _ _ _ h2 h3]
    simp [h4, h5, h6]
  · intro jdump m e v h1 h2
    refine ⟨?_, ?_⟩ <;> simp [to_structured, to_binary, _to_http, h1, h2]

/-- Witness for C5: the binary decode case with `ce-specversion: 9.9`, the
structured decode case with body `{"specversion": "9.9"}`, and both
encoders on an event with specversion `9.9`. -/
theorem unsupported_specversion_invalid_witness :
    from_http (fun _ => none) none
        [("ce-specversion", "9.9"), ("ce-id", "1"), ("ce-source", "s"),
          ("ce-type", "t")] (.strB "") =
      .error CloudError.invalidRequiredFields ∧
    from_http
        (fun b => if b = .strB "\x7b\"specversion\": \"9.9\"\x7d" then
          some (.obj [("specversion", .str "9.9")]) else none)
        none [] (.strB "\x7b\"specversion\": \"9.9\"\x7d") =
      .error CloudError.invalidRequiredFields ∧
    to_structured (fun _ => none) none
        ⟨[("specversion", .prim (.str "9.9"))], .prim .null⟩ =
      .error CloudError.invalidRequiredFields ∧
    to_binary (fun _ => none) none
        ⟨[("specversion", .prim (.str "9.9"))], .prim .null⟩ =
      .error CloudError.invalidRequiredFields := by
  refine ⟨?_, ?_, ?_, ?_⟩
  · exact unsupported_specversion_invalid.1 _ none _ _ "9.9" (by decide)
      (by decide) (by decide)
  · exact unsupported_specversion_invalid.2.1 _ none _ _
      [("specversion", .str "9.9")] (.str "9.9") (by decide) (by decide)
      (by decide) (by decide) (by decide) (by decide)
  · exact (unsupported_specversion_invalid.2.2 _ none _ (.prim (.str "9.9"))
      (by decide) (by decide)).1
  · exact (unsupported_specversion_invalid.2.2 _ none _ (.prim (.str "9.9"))
      (by decide) (by decide)).2

theorem normalizeBody_text (data : Body) (h : data ≠ .otherB) :
    isTextOrBytes (normalizeBody data) = true := by
  cases data with
  | noneB => rfl
  | strB s => rfl
  | bytesB b => cases b <;> rfl
  | byteArrB b => cases b <;> rfl
  | otherB => exact absurd rfl h

theorem readSpecversion_error_mrf (jparse : Body → Option Value)
    (hs : Dict String) (data : Body) (e : CloudError)
    (h : readSpecversion jparse hs data = .error e) :
    e = CloudError.missingRequiredFields := by
  unfold readSpecversion at h
  split at h
  · simp at h
  · split at h <;> simp_all

theorem from_http_no_isj (jparse : Body → Option Value)
    (unm : Option (Body → Value)) (headers : Dict String) (data : Body)
    (h1 : isTextOrBytes (normalizeBody data) = true) :
    from_http jparse unm headers data ≠
      .error CloudError.invalidStructuredJSON := by
  intro h
  simp only [from_http, h1, if_true] at h
  cases hr : readSpecversion jparse (lowerHeaders headers)
      (normalizeBody data) with
  | error e =>
    rw [hr] at h
    have := readSpecversion_error_mrf _ _ _ _ hr
    subst this
    simp at h
  | ok sv =>
    rw [hr] at h
    dsimp only at h
    by_cases hnull : sv = .prim .null
    · simp [hnull] at h
    · rw [if_neg hnull] at h
      cases hreg : _obj_by_version sv with
      | none => rw [hreg] at h; simp at h
      | some ver => rw [hreg] at h; simp at h

/-- Claim C6: `from_http` raises `InvalidStructuredJSON` exactly when the
body, after the initial normalization, is not text or byte data; the
normalization first turns a `None`, empty-bytes or empty-`bytearray` body
into the explicit empty string, so such bodies never trigger the error. -/
theorem invalid_structured_json_iff :
    (∀ jparse unm headers data,
      from_http jparse unm headers data =
          .error CloudError.invalidStructuredJSON ↔
        isTextOrBytes (normalizeBody data) = false) ∧
    normalizeBody .noneB = .strB "" ∧
    normalizeBody (.bytesB []) = .strB "" ∧
    normalizeBody (.byteArrB []) = .strB "" := by
  refine ⟨fun jparse unm headers data => ⟨?_, ?_⟩, rfl, rfl, rfl⟩
  · intro h
    cases ht : isTextOrBytes (normalizeBody data) with
    | true => exact absurd h (from_http_no_isj jparse unm headers data ht)
    | false => rfl
  · intro h
    simp [from_http, h]

/-- Witness for C6: a non-text, non-bytes body raises
`InvalidStructuredJSON`, while a `None` body (normalized to `""`) does
not. -/
theorem invalid_structured_json_iff_witness :
    from_http (fun _ => none) none [] .otherB =
      .error CloudError.invalidStructuredJSON ∧
    ¬ (from_http (fun _ => none) none [] .noneB =
      .error CloudError.invalidStructuredJSON) :=
  ⟨(invalid_structured_json_iff.1 (fun _ => none) none [] .otherB).mpr
      (by decide),
   fun h => by
    have := (invalid_structured_json_iff.1 (fun _ => none) none [] .noneB).mp h
    simp [normalizeBody, isTextOrBytes] at this⟩

/-- The extensions sub-map never holds the reserved names: vendor
attributes are by definition the names that are not handler properties. -/
def ExtInv (h : Handler) : Prop :=
  dget h.extensions "data" = none ∧ dget h.extensions "extensions" = none

theorem extInv_set (h : Handler) (name : String) (v : Value)
    (hi : ExtInv h) : ExtInv (h.set name v) := by
  unfold Handler.set
  split
  · exact hi
  · split
    · exact hi
    · rename_i hnd hne
      push_neg at hne
      constructor
      · rw [dget_dset_ne _ _ _ _ hnd]
        exact hi.1
      · rw [dget_dset_ne _ _ _ _ hne.1]
        exact hi.2

theorem extInv_foldl {β : Type} (step : Handler → β → Handler)
    (hstep : ∀ h b, ExtInv h → ExtInv (step h b)) :
    ∀ (l : List β) (h0 : Handler), ExtInv h0 → ExtInv (l.foldl step h0)
  | [], _, hp => hp
  | b :: l, h0, hp =>
      extInv_foldl step hstep l (step h0 b) (hstep h0 b hp)

theorem extInv_fromRequest (jparse : Body → Option Value) (ver : Version)
    (headers : Dict String) (body : Body) (unmarshaller : Body → Value) :
    ExtInv (fromRequest jparse ver headers body unmarshaller) := by
  have hempty : ExtInv (Handler.empty ver) := ⟨rfl, rfl⟩
  unfold fromRequest
  split
  · refine ?_
    have hfold := extInv_foldl
      (fun h kv =>
        if ceHeaderName kv.1 then h.set (ceAttributeName kv.1) (.prim (.str kv.2))
        else h)
      (fun h kv hi => by
        dsimp only
        split
        · exact extInv_set h _ _ hi
        · exact hi)
      headers (Handler.empty ver) hempty
    exact hfold
  · split
    · exact extInv_foldl _
        (fun h kv hi => extInv_set h _ _ hi) _ (Handler.empty ver) hempty
    · exact hempty

theorem buildDecodedEvent_no_reserved (h : Handler) (hi : ExtInv h) :
    dget (buildDecodedEvent h).attributes "data" = none ∧
      dget (buildDecodedEvent h).attributes "extensions" = none := by
  unfold buildDecodedEvent CloudEvent.create
  constructor
  · rw [dget_dupdate_none _ _ _ hi.1,
      dget_derase_ne _ _ _ (by simp), dget_derase_self]
  · rw [dget_dupdate_none _ _ _ hi.2, dget_derase_self]

theorem from_http_ok_shape (jparse : Body → Option Value)
    (unm : Option (Body → Value)) (headers : Dict String) (data : Body)
    (e : CloudEvent) (h : from_http jparse unm headers data = .ok e) :
    ∃ ver, e = buildDecodedEvent (fromRequest jparse ver
      (lowerHeaders headers) (normalizeBody data)
      (unm.getD (_json_or_string jparse))) := by
  simp only [from_http] at h
  split at h
  · split at h
    · simp at h
    · split at h
      · simp at h
      · split at h
        · simp at h
        · rename_i ver hver
          exact ⟨ver, (Except.ok.inj h).symm⟩
  · simp at h

theorem from_dict_no_data_key (d : Dict Value) :
    dget (from_dict d).attributes "data" = none := by
  rw [dget_eq_none_iff]
  intro kv hm
  simp only [from_dict, CloudEvent.create, List.mem_map] at hm
  obtain ⟨x, hx, hfx⟩ := hm
  have hp := List.of_mem_filter hx
  rw [← hfx]
  simpa using hp

/-- Counterexample to C2 as stated: `from_dict` filters only the key
`"data"` out of the input dict (`if attr_name != "data"`), so the
reserved key `"extensions"` survives into the attribute map of the event
it constructs. -/
theorem from_dict_keeps_extensions_key :
    dget (from_dict [("specversion", Value.prim (.str "1.0")),
        ("extensions", Value.prim (.str "x"))]).attributes "extensions" =
      some (Value.prim (.str "x")) := by decide

/-- Claim C2 (amended): every event decoded by `from_http` has an attribute
map free of the reserved keys `"data"` and `"extensions"` (the handler's
placeholder keys are popped and the extensions sub-map — which never
holds reserved names — is flattened on top); `from_dict` keeps only the
key `"data"` out of the attribute mapping it passes to the factory (the
key `"extensions"` is not stripped there). -/
theorem decoded_event_reserved_keys :
    (∀ jparse unm headers data e,
      from_http jparse unm headers data = .ok e →
      dget e.attributes "data" = none ∧
        dget e.attributes "extensions" = none) ∧
    (∀ d, dget (from_dict d).attributes "data" = none) := by
  constructor
  · intro jparse unm headers data e h
    obtain ⟨ver, rfl⟩ := from_http_ok_shape jparse unm headers data e h
    exact buildDecodedEvent_no_reserved _ (extInv_fromRequest _ _ _ _ _)
  · exact from_dict_no_data_key

/-- Witness for C2 (amended): a concrete structured decode whose body
carries an extension attribute, and a concrete `from_dict` call. -/
theorem decoded_event_reserved_keys_witness :
    (dget (from_dict [("specversion", Value.prim (.str "1.0")),
        ("data", Value.prim (.str "d"))]).attributes "data" = none) ∧
    ∀ e, from_http
        (fun b => if b = .strB "\x7b\"specversion\": \"1.0\", \"myext\": \"v\"\x7d"
          then some (.obj [("specversion", .str "1.0"), ("myext", .str "v")])
          else none)
        none [] (.strB "\x7b\"specversion\": \"1.0\", \"myext\": \"v\"\x7d") =
          .ok e →
      dget e.attributes "data" = none ∧
        dget e.attributes "extensions" = none :=
  ⟨decoded_event_reserved_keys.2 _,
   fun e h => decoded_event_reserved_keys.1 _ none _ _ e h⟩

/-- Counterexample to C3 as stated: the empty-payload normalization at
lines 181-186 of `conversion.py` is applied unconditionally, so a
structured-mode decode of a body whose `data` value is the empty string
also yields payload `None` — the empty value is not kept in structured
mode. -/
theorem structured_empty_data_also_normalized :
    from_http
        (fun b =>
          if b = .strB "\x7b\"specversion\": \"1.0\", \"data\": \"\"\x7d"
          then some (.obj [("specversion", .str "1.0"), ("data", .str "")])
          else none)
        none [] (.strB "\x7b\"specversion\": \"1.0\", \"data\": \"\"\x7d") =
      .ok (CloudEvent.create [("specversion", .prim (.str "1.0"))]
        (.prim .null)) := by
  rfl

/-- Claim C3 (amended): the normalization of an empty decoded payload (`""`
or `b""`) to `None` applies in both wire modes — `from_http` performs it
unconditionally after the handler decodes, so no event it returns ever
carries the empty string or empty bytes as payload. -/
theorem from_http_empty_data_normalized (jparse : Body → Option Value)
    (unm : Option (Body → Value)) (headers : Dict String) (data : Body)
    (e : CloudEvent) (h : from_http jparse unm headers data = .ok e) :
    e.data ≠ .prim (.str "") ∧ e.data ≠ .prim (.bytes []) := by
  obtain ⟨ver, rfl⟩ := from_http_ok_shape jparse unm headers data e h
  unfold buildDecodedEvent CloudEvent.create
  dsimp only
  split
  · exact ⟨by simp, by simp⟩
  · rename_i hcond
    push_neg at hcond
    exact hcond

/-- Witness for C3 (amended), at the same structured call as the
counterexample. -/
theorem from_http_empty_data_normalized_witness :
    (CloudEvent.create [("specversion", Value.prim (.str "1.0"))]
        (.prim .null)).data ≠ Value.prim (.str "") ∧
    (CloudEvent.create [("specversion", Value.prim (.str "1.0"))]
        (.prim .null)).data ≠ Value.prim (.bytes []) :=
  from_http_empty_data_normalized
    (fun b =>
      if b = .strB "\x7b\"specversion\": \"1.0\", \"data\": \"\"\x7d"
      then some (.obj [("specversion", .str "1.0"), ("data", .str "")])
      else none)
    none [] (.strB "\x7b\"specversion\": \"1.0\", \"data\": \"\"\x7d") _ rfl

theorem readSpecversion_parse_fail (jparse : Body → Option Value)
    (hs : Dict String) (data : Body)
    (hbin : dget hs "ce-specversion" = none) (hp : jparse data = none) :
    readSpecversion jparse hs data =
      .error CloudError.missingRequiredFields := by
  simp [readSpecversion, is_binary, hbin, hp]

/-- Counterexample to C4 as stated: a structured body whose parsed map
*has* the `"specversion"` key, mapped to JSON `null`, still raises
`MissingRequiredFields` — `raw_ce.get("specversion", None)` collapses a
null value and an absent key into the same Python `None`. -/
theorem specversion_null_still_missing :
    from_http
        (fun b => if b = .strB "\x7b\"specversion\": null\x7d"
          then some (.obj [("specversion", .null)]) else none)
        none [] (.strB "\x7b\"specversion\": null\x7d") =
      .error CloudError.missingRequiredFields ∧
    (fun b => if b = .strB "\x7b\"specversion\": null\x7d"
        then some (Value.obj [("specversion", .null)]) else none)
      (normalizeBody (.strB "\x7b\"specversion\": null\x7d")) =
      some (Value.obj [("specversion", Prim.null)]) ∧
    dget [(("specversion" : String), Prim.null)] "specversion" =
      some Prim.null :=
  ⟨rfl, rfl, rfl⟩

/-- Claim C4 (amended): for a `from_http` call whose (lowercased) headers
carry no `ce-specversion` (structured mode) and whose body is of
text/bytes type, `MissingRequiredFields` is raised exactly when the
specversion cannot be established from the body: the body does not parse
as JSON, or parses to a value without key lookup, or the parsed map's
`"specversion"` key is absent *or maps to JSON null*. -/
theorem structured_missing_required_iff (jparse : Body → Option Value)
    (unm : Option (Body → Value)) (headers : Dict String) (data : Body)
    (hmode : dget (lowerHeaders headers) "ce-specversion" = none)
    (htype : data ≠ .otherB) :
    (from_http jparse unm headers data =
        .error CloudError.missingRequiredFields) ↔
      (jparse (normalizeBody data) = none ∨
       (∃ v, jparse (normalizeBody data) = some v ∧ ∀ kvs, v ≠ .obj kvs) ∨
       (∃ kvs, jparse (normalizeBody data) = some (.obj kvs) ∧
         (dget kvs "specversion" = none ∨
          dget kvs "specversion" = some Prim.null))) := by
  have h1 := normalizeBody_text data htype
  simp only [from_http, h1, if_true]
  cases hp : jparse (normalizeBody data) with
  | none =>
    rw [readSpecversion_parse_fail _ _ _ hmode hp]
    simp
  | some v =>
    rw [readSpecversion_structured jparse _ _ v hmode hp]
    cases v with
    | obj kvs =>
      dsimp only
      cases hs : dget kvs "specversion" with
      | none => simp [hs]
      | some p =>
        by_cases hnull : p = Prim.null
        · subst hnull
          simp [hs]
        · simp only [Option.map_some', Option.getD_some]
          rw [if_neg (by simp [hnull])]
          cases hreg : _obj_by_version (.prim p) with
          | none => simp [hs, hnull]
          | some ver => simp [hs, hnull]
    | prim p => simp
    | time iso => simp
    | enumv p => simp
    | tag t v => simp
    | arr xs => simp

/-- Witness for C4 (amended): `from_http(headers={}, data="{}")` raises
`MissingRequiredFields` (the body parses to the empty JSON object, which
lacks the `specversion` key). -/
theorem structured_missing_required_iff_witness :
    from_http (fun b => if b = .strB "\x7b\x7d" then some (.obj []) else none)
        none [] (.strB "\x7b\x7d") =
      .error CloudError.missingRequiredFields :=
  (structured_missing_required_iff _ none [] _ (by decide) (by decide)).mpr
    (Or.inr (Or.inr ⟨[], by decide, Or.inl (by decide)⟩))

theorem dget_map_values (f : Value → Value) (d : Dict Value) (k : String) :
    dget (d.map (fun kv => (kv.1, f kv.2))) k = (dget d k).map f := by
  induction d with
  | nil => rfl
  | cons kv rest ih =>
    by_cases h : kv.1 = k <;> simp [List.map_cons, dget, h, ih]

theorem dget_strip_tags (d : Dict Value) (k : String) :
    dget (_strip_attribute_cbor_tags d) k =
      (dget d k).map _value_without_cbor_tag :=
  dget_map_values _ d k

theorem dget_tagOne_ne (d : Dict Value) (n k : String) (h : n ≠ k) :
    dget (tagOneUriAttribute d n) k = dget d k := by
  unfold tagOneUriAttribute
  split
  · exact dget_dset_ne _ _ _ _ h
  · rfl

theorem dget_tagOne_str (d : Dict Value) (n s : String)
    (h : dget d n = some (.prim (.str s))) :
    dget (tagOneUriAttribute d n) n = some (.tag 32 (.prim (.str s))) := by
  unfold tagOneUriAttribute
  rw [h]
  exact dget_dset_self _ _ _

theorem dget_tagOne_nonstr (d : Dict Value) (n : String) (v : Value)
    (h : dget d n = some v) (hns : ∀ s, v ≠ .prim (.str s)) :
    dget (tagOneUriAttribute d n) n = some v := by
  unfold tagOneUriAttribute
  rw [h]
  cases v with
  | prim p =>
    cases p with
    | str s => exact absurd rfl (hns s)
    | null => exact h
    | bytes b => exact h
    | intv n => exact h
    | boolv b => exact h
  | time iso => exact h
  | enumv p => exact h
  | tag t v => exact h
  | arr xs => exact h
  | obj kvs => exact h

theorem dget_timeDecode_ne (isoparse : String → Option String)
    (d : Dict Value) (k : String) (h : k ≠ "time") :
    dget (_best_effort_decode_iso_formatted_time isoparse d) k = dget d k := by
  unfold _best_effort_decode_iso_formatted_time
  split
  · split
    · exact dget_dset_ne _ _ _ _ (Ne.symm h)
    · rfl
  · rfl

theorem dget_from_dict_attrs (d : Dict Value) (k : String)
    (hk : k ≠ "data") :
    dget (from_dict d).attributes k =
      (dget d k).map best_effort_encode_attribute_value := by
  unfold from_dict CloudEvent.create
  dsimp only
  rw [dget_map_values]
  show (dget (derase d "data") k).map _ = _
  rw [dget_derase_ne _ _ _ (Ne.symm hk)]

/-- Claim C8: with the CBOR codec installed, `to_cbor` wraps the string
values of the well-known URI attributes `source` and `dataschema` in CBOR
semantic tag 32 (leaving non-string values untouched), `from_cbor` strips
the tag wrapper back to the inner value, and the full round trip through
any faithful CBOR codec pair returns the plain source string. -/
theorem cbor_uri_tag_roundtrip :
    (∀ d s, dget d "source" = some (.prim (.str s)) →
      dget (_tag_well_known_uri_attributes d) "source" =
        some (.tag 32 (.prim (.str s)))) ∧
    (∀ d s, dget d "dataschema" = some (.prim (.str s)) →
      dget (_tag_well_known_uri_attributes d) "dataschema" =
        some (.tag 32 (.prim (.str s)))) ∧
    (∀ d v, dget d "source" = some v → (∀ s, v ≠ .prim (.str s)) →
      dget (_tag_well_known_uri_attributes d) "source" = some v) ∧
    (∀ d k, dget (_strip_attribute_cbor_tags d) k =
      (dget d k).map _value_without_cbor_tag) ∧
    (∀ (β : Type) isoparse (dumps : Dict Value → β)
        (loads : β → Dict Value) (e : CloudEvent) s,
      (∀ x, loads (dumps x) = x) →
      dget e.attributes "source" = some (.prim (.str s)) →
      dget (from_cbor loads (to_cbor isoparse dumps e)).attributes
        "source" = some (.prim (.str s))) := by
  have hsrc : ∀ (d : Dict Value) s,
      dget d "source" = some (.prim (.str s)) →
      dget (_tag_well_known_uri_attributes d) "source" =
        some (.tag 32 (.prim (.str s))) := by
    intro d s h
    unfold _tag_well_known_uri_attributes
    rw [dget_tagOne_ne _ _ _ (by decide), dget_tagOne_str _ _ _ h]
  refine ⟨hsrc, ?_, ?_, dget_strip_tags, ?_⟩
  · intro d s h
    unfold _tag_well_known_uri_attributes
    have h2 : dget (tagOneUriAttribute d "source") "dataschema" =
        some (.prim (.str s)) := by
      rw [dget_tagOne_ne _ _ _ (by decide)]
      exact h
    exact dget_tagOne_str _ _ _ h2
  · intro d v h hns
    unfold _tag_well_known_uri_attributes
    rw [dget_tagOne_ne _ _ _ (by decide)]
    exact dget_tagOne_nonstr _ _ _ h hns
  · intro β isoparse dumps loads e s hinv h
    unfold from_cbor to_cbor
    rw [hinv]
    have hD : dget (_tag_well_known_uri_attributes
        (_best_effort_decode_iso_formatted_time isoparse (to_dict e)))
        "source" = some (.tag 32 (.prim (.str s))) := by
      apply hsrc
      rw [dget_timeDecode_ne _ _ _ (by decide)]
      show dget (dset e.attributes "data" e.data) "source" = _
      rw [dget_dset_ne _ _ _ _ (by decide)]
      exact h
    rw [dget_from_dict_attrs _ _ (by decide), dget_strip_tags, hD]
    rfl

/-- Witness for C8: a concrete event with `source = "http://example"`
round-tripped through the identity CBOR codec pair. -/
theorem cbor_uri_tag_roundtrip_witness :
    dget (from_cbor (fun x => x) (to_cbor (fun _ => none) (fun x => x)
        ⟨[("specversion", .prim (.str "1.0")),
          ("source", .prim (.str "http://example"))],
          .prim .null⟩)).attributes "source" =
      some (Value.prim (.str "http://example")) :=
  cbor_uri_tag_roundtrip.2.2.2.2 (Dict Value) (fun _ => none) (fun x => x)
    (fun x => x) _ "http://example" (fun x => rfl) (by decide)

/-- Witness for C7: a concrete event with a string `source` attribute and
a concrete byte string. -/
theorem cbor_unavailable_always_fails_witness :
    to_cbor_noCbor (fun _ => none)
        ⟨[("source", .prim (.str "http://example"))], .prim .null⟩ =
      .error CloudError.cborFeatureNotInstalled ∧
    from_cbor_noCbor [1, 2, 3] =
      .error CloudError.cborFeatureNotInstalled :=
  ⟨cbor_unavailable_always_fails.1 (fun _ => none)
      ⟨[("source", .prim (.str "http://example"))], .prim .null⟩,
   cbor_unavailable_always_fails.2 [1, 2, 3]⟩

/-- Witness for C9: a concrete event is unchanged by `to_dict`. -/
theorem to_dict_does_not_mutate_witness :
    (to_dict_run ⟨[("specversion", .prim (.str "1.0"))], .prim .null⟩).2 =
      ⟨[("specversion", .prim (.str "1.0"))], .prim .null⟩ ∧
    (to_dict_run ⟨[("specversion", .prim (.str "1.0"))], .prim .null⟩).1 =
      to_dict ⟨[("specversion", .prim (.str "1.0"))], .prim .null⟩ :=
  to_dict_does_not_mutate ⟨[("specversion", .prim (.str "1.0"))], .prim .null⟩

end CE
